import Mathlib

/-!
# Verification of the echo voice-dictation core

Shallow embedding of the audio decoding, streaming-transcription and
post-processing code of the repository (Rust sources under
`src-tauri/src`), together with theorems settling the frozen claims.

Conventions of the embedding:
* Rust `f32` sample values and arithmetic on them are modelled over `ℚ`.
  Where the exact IEEE-754 binary32 rounding of an operation is what a
  claim is about (the adaptive-limit reduction `(current as f32 * 0.9) as
  usize`), rounding to the binary32 grid (round-to-nearest, ties-to-even,
  normal range) is modelled explicitly by `roundF32`.  Where a claim is
  about the algebraic shape of a computation (normalization divisions,
  channel averaging), the operations are taken at their exact rational
  values.
* Stateful Rust methods become explicit state-passing functions on
  structures mirroring the fields they touch; spawned work (the partial
  transcription thread) is modelled by exposing the data handed to the
  thread and by a separate post-measurement update function, exactly as
  the code runs it.
* Fallible Rust functions returning `anyhow::Result` become `Except
  String`.
-/

namespace Echo

/-! ## IEEE-754 binary32 rounding model (normal positive range)

A positive binary32 value is an exact rational; values here are carried
as unreduced fractions `num / den` of integers with `den > 0` (so that
everything kernel-computes without rational normalization).  `roundF32`
rounds a fraction to the binary32 grid — 24-bit mantissa,
round-to-nearest, ties-to-even — for values in the positive normal,
non-overflowing range, which covers every value occurring in the code
(all are between `0.9` and `usize::MAX`); nonpositive values map to `0`.
This models Rust's `usize as f32` cast, the `f32` literal `0.9`, and
`f32` multiplication (exact product, then one rounding). -/

/-- Fuel-driven base-2 logarithm on `Nat`: `log2Aux fuel n` is the largest
`e` with `2^e ≤ n` (for `n ≥ 1` and enough fuel). -/
def log2Aux : Nat → Nat → Nat
  | 0, _ => 0
  | fuel+1, n => if n ≤ 1 then 0 else log2Aux fuel (n / 2) + 1

/-- Fuel-driven binade finder for fractions below one: for
`0 < num/den < 1`, the least `k` with `1 ≤ 2^k * num / den`. -/
def negExpAux : Nat → ℤ → ℤ → Nat
  | 0, _, _ => 0
  | fuel+1, num, den => if den ≤ num then 0 else negExpAux fuel (2*num) den + 1

/-- Round the fraction `num / den` (`den > 0`) to the nearest integer,
ties to even. -/
def roundEven (num den : ℤ) : ℤ :=
  let fl := num.fdiv den
  let twiceFrac := 2 * (num - fl * den)
  if twiceFrac < den then fl
  else if den < twiceFrac then fl + 1
  else if fl % 2 = 0 then fl else fl + 1

/-- Round the fraction `num / den` (`den > 0`) to the binary32 grid:
locate the value's binade `[2^e, 2^(e+1))`, whose grid spacing is
`2^(e-23)`, and round to the nearest grid point, ties to even.  The
result is again an exact fraction (numerator, denominator). -/
def roundF32 (num den : ℤ) : ℤ × ℤ :=
  if num ≤ 0 then (0, 1)
  else if den ≤ num then
    let e := log2Aux 128 (num.fdiv den).toNat
    if 23 ≤ e then
      (roundEven num (den * 2^(e-23)) * 2^(e-23), 1)
    else
      let m : Nat := 23 - e
      (roundEven (num * 2^m) den, 2^m)
  else
    let m : Nat := 23 + negExpAux 160 num den
    (roundEven (num * 2^m) den, 2^m)

/-- Rust `n as f32` for `n : usize`. -/
def natToF32 (n : Nat) : ℤ × ℤ := roundF32 n 1

/-- Rust `f32` multiplication: the exact product of the two fractions,
rounded once. -/
def f32mul (a b : ℤ × ℤ) : ℤ × ℤ := roundF32 (a.1 * b.1) (a.2 * b.2)

/-- The Rust `f32` literal `0.9`: the binary32 value nearest `9/10`. -/
def f32lit09 : ℤ × ℤ := roundF32 9 10

/-- Rust `q as usize` for an `f32` value `q`: truncation toward zero,
saturating at `0` for negative values. -/
def f32ToUsize (a : ℤ × ℤ) : Nat := (a.1.fdiv a.2).toNat

/-! ## Streaming buffer & adaptive windowing
(`src-tauri/src/managers/transcription.rs`)

The fields of `TranscriptionManager` that the streaming path touches.
Wall-clock instants are milliseconds as `Nat`. -/

structure StreamingState where
  streaming_buffer : List ℚ
  last_partial_update : Nat
  streaming_in_progress : Bool
  adaptive_max_samples : Option Nat
  deriving Repr, DecidableEq

/-- `TranscriptionManager::start_streaming`: clears the buffer, stamps
`last_partial_update`, resets the adaptive limit.  (It does not touch
`streaming_in_progress`.) -/
def start_streaming (s : StreamingState) (now : Nat) : StreamingState :=
  { s with
    streaming_buffer := []
    last_partial_update := now
    adaptive_max_samples := none }

def MIN_STREAMING_SAMPLES : Nat := 16000 * 5
def TARGET_TRANSCRIPTION_MS : Nat := 800

/-- The adaptive-limit update performed by the spawned partial-transcription
thread after a measurement (`transcription_ms`, and the `samples_count` of
the window that was transcribed), from
`TranscriptionManager::handle_streaming_chunk`. -/
def updateAdaptiveLimit (transcription_ms : Nat) (samples_count : Nat)
    (adaptive : Option Nat) : Option Nat :=
  if TARGET_TRANSCRIPTION_MS < transcription_ms then
    match adaptive with
    | none => some (max samples_count MIN_STREAMING_SAMPLES)
    | some current =>
      let reduced := f32ToUsize (f32mul (natToF32 current) f32lit09)
      let new_limit := max reduced MIN_STREAMING_SAMPLES
      if new_limit < current then some new_limit else some current
  else adaptive

/-- `TranscriptionManager::handle_streaming_chunk`, up to the point where
the partial-transcription thread is spawned.  Returns the new state and
the window handed to the spawned thread (`none` when no transcription is
started this call). -/
def handle_streaming_chunk (s : StreamingState) (chunk : List ℚ) (now : Nat) :
    StreamingState × Option (List ℚ) :=
  let buf := s.streaming_buffer ++ chunk
  let current_len := buf.length
  let s1 : StreamingState := { s with streaming_buffer := buf }
  let elapsed_ms := now - s1.last_partial_update
  if 500 < elapsed_ms then
    let s2 : StreamingState := { s1 with last_partial_update := now }
    if current_len < 16000 then (s2, none)
    else if s2.streaming_in_progress then (s2, none)
    else
      let s3 : StreamingState := { s2 with streaming_in_progress := true }
      let buf_to_transcribe :=
        match s3.adaptive_max_samples with
        | some max_samples =>
          if max_samples < buf.length then buf.drop (buf.length - max_samples)
          else buf
        | none => buf
      (s3, some buf_to_transcribe)
  else (s1, none)

/-! ## Transcription manager model-lifecycle state
(`src-tauri/src/managers/transcription.rs`, `TranscriptionManager`)

`transcribe` is modelled as a sequential state-passing function.  The
engines themselves (whisper / parakeet inference) and the word-correction
helper `apply_custom_words` live behind library calls; their behaviour is
a parameter of the embedding (`TranscribeEnv`), so every theorem below
holds for all backend behaviours.  The condition-variable wait on
`is_loading` is modelled by observing `is_loading = false` afterwards and
installing the engine the background load produced (also a parameter);
an explicit effect trace records which steps ran. -/

inductive EngineKind
  | whisper
  | parakeet
  deriving Repr, DecidableEq

structure TMState where
  engine : Option EngineKind
  current_model_id : Option String
  is_loading : Bool
  last_activity : Nat
  deriving Repr, DecidableEq

inductive TEffect
  | updatedLastActivity
  | waitedForLoad
  | engineTranscribe
  | unloadedModel
  deriving Repr, DecidableEq

structure TranscribeEnv where
  custom_words : List String
  word_correction_threshold : ℚ
  unload_immediately : Bool
  /-- Inference result of the loaded backend on the given samples. -/
  engineRun : EngineKind → List ℚ → Except String String
  /-- `apply_custom_words` collaborator (audio toolkit). -/
  applyCustomWords : String → List String → ℚ → String
  /-- Engine slot contents once an in-progress background load finishes. -/
  afterLoadEngine : Option EngineKind
  afterLoadModelId : Option String

/-- `TranscriptionManager::transcribe`.  Returns the result, the state
after the call, and the trace of effects that ran. -/
def transcribe (env : TranscribeEnv) (s : TMState) (audio : List ℚ)
    (now : Nat) : Except String String × TMState × List TEffect :=
  -- last-activity timestamp is updated first
  let s1 : TMState := { s with last_activity := now }
  if audio.length = 0 then (Except.ok "", s1, [TEffect.updatedLastActivity])
  else
    -- wait for any in-progress load; afterwards is_loading is false and
    -- the engine slot holds whatever the load produced
    let (s2, eff2) :=
      if s1.is_loading then
        ({ s1 with is_loading := false
                   engine := env.afterLoadEngine
                   current_model_id := env.afterLoadModelId },
         [TEffect.updatedLastActivity, TEffect.waitedForLoad])
      else (s1, [TEffect.updatedLastActivity])
    match s2.engine with
    | none => (Except.error "Model is not loaded for transcription.", s2, eff2)
    | some eng =>
      match env.engineRun eng audio with
      | Except.error e => (Except.error e, s2, eff2 ++ [TEffect.engineTranscribe])
      | Except.ok text =>
        let corrected :=
          if env.custom_words ≠ [] then
            env.applyCustomWords text env.custom_words env.word_correction_threshold
          else text
        if env.unload_immediately then
          (Except.ok corrected.trim,
           { s2 with engine := none, current_model_id := none },
           eff2 ++ [TEffect.engineTranscribe, TEffect.unloadedModel])
        else
          (Except.ok corrected.trim, s2, eff2 ++ [TEffect.engineTranscribe])

/-! ## Sample-format normalization
(`src-tauri/src/audio_toolkit/audio/decoder.rs`)

Sample values over `ℚ`; the divisions are taken at their exact rational
values. -/

/-- `i16::from_le_bytes([b0, b1])` (bytes as `Nat < 256`; `% 256` keeps
the function total on `Nat`). -/
def i16_from_le_bytes (b0 b1 : Nat) : ℤ :=
  let n : ℤ := (b0 % 256 : Nat) + 256 * (b1 % 256 : Nat)
  if n < 32768 then n else n - 65536

/-- `slice::chunks_exact(2)`: consecutive byte pairs, trailing odd byte
dropped. -/
def chunksExact2 : List Nat → List (Nat × Nat)
  | b0 :: b1 :: rest => (b0, b1) :: chunksExact2 rest
  | _ => []

/-- `pcm_s16le_to_f32`: raw little-endian 16-bit PCM bytes to samples,
each divided by `i16::MAX`. -/
def pcm_s16le_to_f32 (bytes : List Nat) : List ℚ :=
  (chunksExact2 bytes).map (fun p => (i16_from_le_bytes p.1 p.2 : ℚ) / 32767)

/-- `decode_with_symphonia`, `S16` branch: `sample as f32 / i16::MAX as f32`. -/
def normalizeS16 (x : ℤ) : ℚ := (x : ℚ) / 32767

/-- `decode_with_symphonia`, `S24` branch: `sample.inner() as f32 / i32::MAX
as f32` (note: the 32-bit max, not the 24-bit one). -/
def normalizeS24 (x : ℤ) : ℚ := (x : ℚ) / 2147483647

/-- `decode_with_symphonia`, `S32` branch: `sample as f32 / i32::MAX as f32`. -/
def normalizeS32 (x : ℤ) : ℚ := (x : ℚ) / 2147483647

/-- `decode_with_symphonia`, `U8` branch: `((sample as f32) - 128.0) / 128.0`. -/
def normalizeU8 (x : Nat) : ℚ := ((x : ℚ) - 128) / 128

/-- The WAV normalization divisor `1 << (spec.bits_per_sample - 1)` as
the source computes it: the unsuffixed literal `1` is an `i32`, so this
is a 32-bit two's-complement shift — `2^(b-1)` for `b ≤ 31`, but wrapping
to `i32::MIN = -2^31` at `b = 32` (the shift amount is masked modulo 32,
as in release-mode Rust). -/
def wavMaxValue (bits_per_sample : Nat) : ℤ :=
  (2 ^ ((bits_per_sample - 1) % 32) + 2 ^ 31) % 2 ^ 32 - 2 ^ 31

/-- `decode_wav_file` integer branch: `max_value = (1 << (bits_per_sample
- 1)) as f32`, then `s as f32 / max_value`. -/
def wavNormalizeInt (bits_per_sample : Nat) (x : ℤ) : ℚ :=
  (x : ℚ) / ((wavMaxValue bits_per_sample : ℤ) : ℚ)

/-! ## Mono downmix (`stereo_to_mono`) -/

/-- `slice::chunks(n)`: split into chunks of `n`, last chunk possibly
shorter.  (`n = 0` panics in Rust and is never called; it returns `[]`
here.) -/
def chunkList : Nat → List α → List (List α)
  | _, [] => []
  | 0, _ :: _ => []
  | n+1, x :: xs => (x :: xs).take (n+1) :: chunkList (n+1) ((x :: xs).drop (n+1))
  termination_by _ l => l.length
  decreasing_by
    simp only [List.length_drop, List.length_cons]
    omega

/-- `stereo_to_mono`: arithmetic mean of each consecutive group of
`channels` samples (these groups are frames exactly when the buffer is
frame-interleaved, as the WAV reader's output is). -/
def stereo_to_mono (samples : List ℚ) (channels : Nat) : List ℚ :=
  if channels = 1 then samples
  else (chunkList channels samples).map
    (fun chunk => chunk.sum / (chunk.length : ℚ))

/-- The per-packet push order of `decode_with_symphonia`: for each
channel in turn, all of that packet's samples of that channel
(`for ch in 0..channels_count { buffer.chan(ch) ... push }` — symphonia
audio buffers are planar), i.e. the channel-planar concatenation, not an
interleaving. -/
def pushPacketSamples (packet_channels : List (List ℚ)) : List ℚ :=
  packet_channels.flatten

/-! ## Streaming (symphonia) decode loop
(`decode_with_symphonia`, packet loop)

The demuxer/decoder behaviour on a particular input file is modelled as
the sequence of events the loop observes: each `next_packet` call either
yields a packet (which then decodes to samples or fails in one of the
coded ways), asks for a reset, hits the end/IO error, or fails to read. -/

inductive DecodeOutcome
  /-- Packet decoded; the samples pushed for this packet (all channels). -/
  | ok (samples : List ℚ)
  /-- `Error::DecodeError`: malformed frame, skipped. -/
  | decodeError
  /-- `Error::ResetRequired` from the decoder: decoder reset, continue. -/
  | resetRequired
  /-- Any other decode error: skipped, counted. -/
  | otherError
  deriving Repr, DecidableEq

inductive PacketEvent
  /-- `next_packet` succeeded (this resets the consecutive-error counter),
  then the decoder produced the given outcome. -/
  | packet (d : DecodeOutcome)
  /-- `next_packet` returned `ResetRequired`: continue. -/
  | resetRequired
  /-- `next_packet` returned `IoError`: end of stream, break. -/
  | ioError
  /-- `next_packet` returned any other error: skipped, counted. -/
  | readError
  deriving Repr, DecidableEq

def MAX_CONSECUTIVE_ERRORS : Nat := 50

/-- The packet loop of `decode_with_symphonia`: accumulates samples,
tracks `consecutive_errors`, aborts when the counter reaches
`MAX_CONSECUTIVE_ERRORS`.  A successful `next_packet` resets the counter
before the decode outcome is examined, exactly as in the source. -/
def decodeLoop : List PacketEvent → Nat → List ℚ → Except String (List ℚ)
  | [], _, acc => Except.ok acc
  | e :: rest, consec, acc =>
    match e with
    | PacketEvent.resetRequired => decodeLoop rest consec acc
    | PacketEvent.ioError => Except.ok acc
    | PacketEvent.readError =>
      if MAX_CONSECUTIVE_ERRORS ≤ consec + 1 then
        Except.error "Too many consecutive errors reading packets"
      else decodeLoop rest (consec + 1) acc
    | PacketEvent.packet d =>
      -- consecutive_errors = 0: reset on successful packet read
      match d with
      | DecodeOutcome.ok samples => decodeLoop rest 0 (acc ++ samples)
      | DecodeOutcome.decodeError =>
        if MAX_CONSECUTIVE_ERRORS ≤ 0 + 1 then
          Except.error "Too many consecutive decode errors"
        else decodeLoop rest (0 + 1) acc
      | DecodeOutcome.resetRequired => decodeLoop rest 0 acc
      | DecodeOutcome.otherError =>
        if MAX_CONSECUTIVE_ERRORS ≤ 0 + 1 then
          Except.error "Too many consecutive decode errors"
        else decodeLoop rest (0 + 1) acc

/-- `decode_with_symphonia` after the loop: error on zero total samples,
then mono downmix, then resampling (`resample_audio` wraps the external
`rubato` resampler; its behaviour is the parameter `rs`, applied only
when the source rate differs from 16 kHz). -/
def decode_with_symphonia (events : List PacketEvent) (channels_count : Nat)
    (sample_rate : Nat) (rs : List ℚ → List ℚ) : Except String (List ℚ) :=
  match decodeLoop events 0 [] with
  | Except.error e => Except.error e
  | Except.ok all_samples =>
    if all_samples.isEmpty then
      Except.error "No audio could be decoded from file. The file may be corrupted or use an unsupported codec."
    else
      let all_samples :=
        if 1 < channels_count then stereo_to_mono all_samples channels_count
        else all_samples
      let all_samples :=
        if sample_rate ≠ 16000 then rs all_samples else all_samples
      Except.ok all_samples

/-! ## Video decoding via the external transcoder
(`decode_video_with_ffmpeg`) -/

/-- Outcome of the spawned transcoder process (`std::process::Output`):
exit status success flag, stdout bytes, stderr text. -/
structure ProcessOutput where
  success : Bool
  stdout : List Nat
  stderr : String

/-- `decode_video_with_ffmpeg`: fails if the transcoder binary is not
found or exits non-zero; otherwise parses stdout as s16le PCM.  (There is
no emptiness check on stdout in the source.) -/
def decode_video_with_ffmpeg (ffmpeg_found : Bool) (out : ProcessOutput) :
    Except String (List ℚ) :=
  if ¬ ffmpeg_found then
    Except.error "FFmpeg not found. Please install FFmpeg to process video files."
  else if ¬ out.success then
    Except.error ("FFmpeg failed to extract audio: " ++ out.stderr)
  else
    Except.ok (pcm_s16le_to_f32 out.stdout)

/-! ## Chinese-variant conversion (`src-tauri/src/actions.rs`) -/

inductive BuiltinConfig
  | Tw2sp
  | S2twp
  deriving Repr, DecidableEq

structure VariantSettings where
  selected_language : String

/-- `maybe_convert_chinese_variant`.  The OpenCC library is the parameter
`openccFromConfig`: `none` models `OpenCC::from_config` failing, `some
converter` a successfully initialized converter. -/
def maybe_convert_chinese_variant
    (openccFromConfig : BuiltinConfig → Option (String → String))
    (settings : VariantSettings) (transcription : String) : Option String :=
  let is_simplified := settings.selected_language = "zh-Hans"
  let is_traditional := settings.selected_language = "zh-Hant"
  if ¬ is_simplified ∧ ¬ is_traditional then none
  else
    let config := if is_simplified then BuiltinConfig.Tw2sp else BuiltinConfig.S2twp
    match openccFromConfig config with
    | some converter => some (converter transcription)
    | none => none

/-- Order on adaptive limits: `none` is "unbounded" (the top element), a
set limit is smaller the smaller its sample count. -/
def limitLE : Option Nat → Option Nat → Prop
  | _, none => True
  | none, some _ => False
  | some n, some m => n ≤ m

/-! # Theorems -/

/-- C1: within a recording session the adaptive streaming limit is
monotonically non-increasing — each post-measurement update leaves it
unchanged or decreases it (with `none` = unbounded as the top element),
and chunk handling itself never changes it — and `start_streaming` clears
the accumulation buffer and resets the limit to unbounded for the next
session. -/
theorem adaptive_limit_monotone (s : StreamingState) (now ms cnt t : Nat)
    (a : Option Nat) (chunk : List ℚ) :
    (start_streaming s now).streaming_buffer = [] ∧
    (start_streaming s now).adaptive_max_samples = none ∧
    limitLE (updateAdaptiveLimit ms cnt a) a ∧
    (handle_streaming_chunk s chunk t).1.adaptive_max_samples
      = s.adaptive_max_samples := by
  refine ⟨rfl, rfl, ?_, ?_⟩
  · unfold updateAdaptiveLimit
    by_cases h : TARGET_TRANSCRIPTION_MS < ms
    · rw [if_pos h]
      rcases a with _ | current
      · exact trivial
      · dsimp only
        by_cases h2 : max (f32ToUsize (f32mul (natToF32 current) f32lit09))
            MIN_STREAMING_SAMPLES < current
        · rw [if_pos h2]
          exact Nat.le_of_lt h2
        · rw [if_neg h2]
          exact Nat.le_refl current
    · rw [if_neg h]
      rcases a with _ | current
      · exact trivial
      · exact Nat.le_refl current
  · dsimp only [handle_streaming_chunk]
    split
    · split
      · rfl
      · split
        · rfl
        · rfl
    · rfl

/-- C2 counterexample: with a limit of `N = 4660341` samples set and a
measurement over the 800 ms target, the code stores `4194307` — the
truncation of the binary32 product `(N as f32) * 0.9f32` — whereas
`max (floor (0.9 * N)) 80000 = 4194306`.  The claimed formula
`max (floor (0.9 * N), 80000)` therefore does not describe the stored
limit. -/
theorem adaptive_reduction_not_floor :
    updateAdaptiveLimit 801 0 (some 4660341) = some 4194307 ∧
    max ((9 * 4660341) / 10) MIN_STREAMING_SAMPLES = 4194306 ∧
    (4194307 : Nat) ≠ 4194306 := by
  refine ⟨by decide, by decide, by decide⟩

/-- C2 amended: after a partial-transcription measurement whose elapsed
time exceeds the 800 ms target, if no limit is set the limit becomes the
transcribed window's sample count floored at 80000; if a limit `N` is
set, the candidate is `max r 80000` where `r` is the binary32 computation
`(N as f32 * 0.9f32) as usize` (which can differ from `floor (0.9 * N)`),
and it is stored only when strictly smaller than `N`.  Measurements at or
under the target leave the limit unchanged. -/
theorem adaptive_update_characterization (ms cnt current : Nat)
    (a : Option Nat) :
    (TARGET_TRANSCRIPTION_MS < ms →
      updateAdaptiveLimit ms cnt none
        = some (max cnt MIN_STREAMING_SAMPLES)) ∧
    (TARGET_TRANSCRIPTION_MS < ms →
      updateAdaptiveLimit ms cnt (some current)
        = if max (f32ToUsize (f32mul (natToF32 current) f32lit09))
              MIN_STREAMING_SAMPLES < current
          then some (max (f32ToUsize (f32mul (natToF32 current) f32lit09))
              MIN_STREAMING_SAMPLES)
          else some current) ∧
    (ms ≤ TARGET_TRANSCRIPTION_MS → updateAdaptiveLimit ms cnt a = a) := by
  refine ⟨fun h => ?_, fun h => ?_, fun h => ?_⟩
  · unfold updateAdaptiveLimit
    rw [if_pos h]
  · unfold updateAdaptiveLimit
    rw [if_pos h]
  · unfold updateAdaptiveLimit
    rw [if_neg (by omega)]

theorem adaptive_update_characterization_witness :
    updateAdaptiveLimit 801 100000 none
      = some (max 100000 MIN_STREAMING_SAMPLES) ∧
    updateAdaptiveLimit 801 0 (some 90000) = some 81000 ∧
    updateAdaptiveLimit 800 0 (some 90000) = some 90000 := by
  refine ⟨(adaptive_update_characterization 801 100000 0 none).1 (by decide),
    ?_, (adaptive_update_characterization 800 0 90000 (some 90000)).2.2
      (by decide)⟩
  rw [(adaptive_update_characterization 801 0 90000 (some 90000)).2.1
    (by decide)]
  decide

/-- C10: every call to `handle_streaming_chunk` appends the entire chunk
to the accumulation buffer, whatever the throttle, the 16000-sample
minimum, or the in-flight flag; and when the 500 ms throttle has not
elapsed, no other streaming state (throttle timestamp, adaptive limit,
in-progress flag) is modified and no transcription window is produced. -/
theorem handle_streaming_chunk_effects (s : StreamingState) (chunk : List ℚ)
    (now : Nat) :
    (handle_streaming_chunk s chunk now).1.streaming_buffer
      = s.streaming_buffer ++ chunk ∧
    (now - s.last_partial_update ≤ 500 →
      (handle_streaming_chunk s chunk now).1
          = { s with streaming_buffer := s.streaming_buffer ++ chunk } ∧
        (handle_streaming_chunk s chunk now).2 = none) := by
  constructor
  · dsimp only [handle_streaming_chunk]
    split
    · split
      · rfl
      · split
        · rfl
        · rfl
    · rfl
  · intro h
    dsimp only [handle_streaming_chunk]
    rw [if_neg (by omega)]
    exact ⟨rfl, rfl⟩

theorem handle_streaming_chunk_effects_witness :
    (handle_streaming_chunk ⟨[], 100, false, none⟩ [1/2] 300).1
        = ⟨[1/2], 100, false, none⟩ ∧
      (handle_streaming_chunk ⟨[], 100, false, none⟩ [1/2] 300).2 = none :=
  (handle_streaming_chunk_effects ⟨[], 100, false, none⟩ [1/2] 300).2
    (by decide)

/-- C3: `transcribe` on an empty sample buffer returns `Ok ""`
immediately: it touches only the last-activity timestamp, does not wait
on an in-progress load, does not load or unload an engine, and leaves
`is_loading`, the engine slot and `current_model_id` unchanged. -/
theorem transcribe_empty_input (env : TranscribeEnv) (s : TMState)
    (now : Nat) :
    transcribe env s [] now
      = (Except.ok "", { s with last_activity := now },
          [TEffect.updatedLastActivity]) ∧
    (transcribe env s [] now).2.1.engine = s.engine ∧
    (transcribe env s [] now).2.1.current_model_id = s.current_model_id ∧
    (transcribe env s [] now).2.1.is_loading = s.is_loading ∧
    TEffect.waitedForLoad ∉ (transcribe env s [] now).2.2 ∧
    TEffect.unloadedModel ∉ (transcribe env s [] now).2.2 := by
  refine ⟨rfl, rfl, rfl, rfl, ?_, ?_⟩ <;> simp [transcribe]

/-- Sanity check of the binary32 model: the `f32` literal `0.9` is
`15099494 / 2^24`, and casting small integers to `f32` is exact. -/
theorem f32_model_sanity :
    f32lit09 = (15099494, 16777216) ∧
    natToF32 4660341 = (9320682, 2) ∧
    f32ToUsize (natToF32 4660341) = 4660341 := by
  refine ⟨by decide, by decide, by decide⟩

/-- C4: during streaming (symphonia) decoding, malformed packets are
skipped while consecutive failures are counted, and the counter resets on
every successful packet read or decode.  49 corrupt frames followed by a
valid frame decode to `Ok` with non-empty samples — whether the
corruption shows up as packet-read errors or as decode errors — while 50
consecutive corrupt frames abort with a hard error: 50 packet-read errors
trip the consecutive-failure threshold no matter what follows, and 50
corrupt-but-readable frames leave zero total samples, which is also a
hard error. -/
theorem decode_corrupt_frame_tolerance (v : ℚ) (rs : List ℚ → List ℚ)
    (rest : List PacketEvent) :
    decode_with_symphonia
        (List.replicate 49 (PacketEvent.packet DecodeOutcome.decodeError)
          ++ [PacketEvent.packet (DecodeOutcome.ok [v])]) 1 16000 rs
      = Except.ok [v] ∧
    decode_with_symphonia
        (List.replicate 49 PacketEvent.readError
          ++ [PacketEvent.packet (DecodeOutcome.ok [v])]) 1 16000 rs
      = Except.ok [v] ∧
    decode_with_symphonia
        (List.replicate 50 (PacketEvent.packet DecodeOutcome.decodeError))
        1 16000 rs
      = Except.error "No audio could be decoded from file. The file may be corrupted or use an unsupported codec." ∧
    decode_with_symphonia (List.replicate 50 PacketEvent.readError ++ rest)
        1 16000 rs
      = Except.error "Too many consecutive errors reading packets" := by
  refine ⟨rfl, rfl, rfl, rfl⟩

/-- Range of `i16::from_le_bytes`. -/
theorem i16_from_le_bytes_range (b0 b1 : Nat) :
    -32768 ≤ i16_from_le_bytes b0 b1 ∧ i16_from_le_bytes b0 b1 ≤ 32767 := by
  have h0 : b0 % 256 < 256 := Nat.mod_lt _ (by omega)
  have h1 : b1 % 256 < 256 := Nat.mod_lt _ (by omega)
  simp only [i16_from_le_bytes]
  split <;> omega

/-- C5 counterexample: the full-scale negative 16-bit sample (`i16::MIN`,
little-endian bytes `[0x00, 0x80]`) decodes — through the raw-PCM path of
the video transcoder, and equally through the symphonia `S16` branch — to
`-32768 / 32767`, which is strictly below `-1.0`. -/
theorem decoded_sample_below_neg_one :
    pcm_s16le_to_f32 [0, 128] = [-(32768 : ℚ) / 32767] ∧
    normalizeS16 (-32768) = -(32768 : ℚ) / 32767 ∧
    -(32768 : ℚ) / 32767 < -1 := by
  refine ⟨?_, ?_, by norm_num⟩
  · simp only [pcm_s16le_to_f32, chunksExact2, i16_from_le_bytes]
    norm_num
  · unfold normalizeS16
    norm_num

/-- C5 amended: for the integer sample formats (signed 16/24/32-bit,
unsigned 8-bit) and the raw 16-bit PCM path, every decoded sample lies
within `[-32768/32767, 1]` — a band whose lower edge is slightly below
`-1.0` (≈ -1.0000305), reached by full-scale negative 16-bit samples;
32-bit float samples are passed through unchanged, so no bound holds for
them beyond the input's own. -/
theorem decoded_samples_bounded (x y z : ℤ) (u : Nat) (bytes : List Nat) :
    (-32768 ≤ x → x ≤ 32767 →
      -(32768 : ℚ) / 32767 ≤ normalizeS16 x ∧ normalizeS16 x ≤ 1) ∧
    (-8388608 ≤ y → y ≤ 8388607 →
      -(32768 : ℚ) / 32767 ≤ normalizeS24 y ∧ normalizeS24 y ≤ 1) ∧
    (-2147483648 ≤ z → z ≤ 2147483647 →
      -(32768 : ℚ) / 32767 ≤ normalizeS32 z ∧ normalizeS32 z ≤ 1) ∧
    (u ≤ 255 →
      -(32768 : ℚ) / 32767 ≤ normalizeU8 u ∧ normalizeU8 u ≤ 1) ∧
    (∀ q ∈ pcm_s16le_to_f32 bytes,
      -(32768 : ℚ) / 32767 ≤ q ∧ q ≤ 1) := by
  refine ⟨fun h1 h2 => ⟨?_, ?_⟩, fun h1 h2 => ⟨?_, ?_⟩, fun h1 h2 => ⟨?_, ?_⟩,
    fun h1 => ⟨?_, ?_⟩, ?_⟩
  · unfold normalizeS16
    gcongr
    exact_mod_cast h1
  · unfold normalizeS16
    rw [div_le_one (by norm_num)]
    exact_mod_cast h2
  · unfold normalizeS24
    calc -(32768 : ℚ) / 32767 ≤ -8388608 / 2147483647 := by norm_num
      _ ≤ (y : ℚ) / 2147483647 := by
          gcongr
          exact_mod_cast h1
  · unfold normalizeS24
    rw [div_le_one (by norm_num)]
    calc (y : ℚ) ≤ 8388607 := by exact_mod_cast h2
      _ ≤ 2147483647 := by norm_num
  · unfold normalizeS32
    calc -(32768 : ℚ) / 32767 ≤ -2147483648 / 2147483647 := by norm_num
      _ ≤ (z : ℚ) / 2147483647 := by
          gcongr
          exact_mod_cast h1
  · unfold normalizeS32
    rw [div_le_one (by norm_num)]
    exact_mod_cast h2
  · unfold normalizeU8
    calc -(32768 : ℚ) / 32767 ≤ -1 := by norm_num
      _ ≤ ((u : ℚ) - 128) / 128 := by
          rw [le_div_iff₀ (by norm_num)]
          have : (0 : ℚ) ≤ (u : ℚ) := Nat.cast_nonneg u
          linarith
  · unfold normalizeU8
    rw [div_le_one (by norm_num)]
    have : (u : ℚ) ≤ 255 := by exact_mod_cast h1
    linarith
  · intro q hq
    unfold pcm_s16le_to_f32 at hq
    obtain ⟨p, hp, rfl⟩ := List.mem_map.mp hq
    obtain ⟨hl, hr⟩ := i16_from_le_bytes_range p.1 p.2
    constructor
    · gcongr
      exact_mod_cast hl
    · rw [div_le_one (by norm_num)]
      exact_mod_cast hr

theorem decoded_samples_bounded_witness :
    (-(32768 : ℚ) / 32767 ≤ normalizeS16 (-32768) ∧
      normalizeS16 (-32768) ≤ 1) ∧
    (-(32768 : ℚ) / 32767 ≤ normalizeS24 8388607 ∧
      normalizeS24 8388607 ≤ 1) ∧
    (-(32768 : ℚ) / 32767 ≤ normalizeS32 (-2147483648) ∧
      normalizeS32 (-2147483648) ≤ 1) ∧
    (-(32768 : ℚ) / 32767 ≤ normalizeU8 0 ∧ normalizeU8 0 ≤ 1) ∧
    (∀ q ∈ pcm_s16le_to_f32 [0, 128],
      -(32768 : ℚ) / 32767 ≤ q ∧ q ≤ 1) := by
  obtain ⟨h1, h2, h3, h4, h5⟩ :=
    decoded_samples_bounded (-32768) 8388607 (-2147483648) 0 [0, 128]
  exact ⟨h1 (by norm_num) (by norm_num), h2 (by norm_num) (by norm_num),
    h3 (by norm_num) (by norm_num), h4 (by norm_num), h5⟩

/-- `chunkList` splits an exact leading chunk off. -/
theorem chunkList_replicate_append (n : Nat) (v : α) (rest : List α) :
    chunkList (n+1) (List.replicate (n+1) v ++ rest)
      = List.replicate (n+1) v :: chunkList (n+1) rest := by
  rw [List.replicate_succ, List.cons_append, chunkList]
  rw [List.take_succ_cons, List.drop_succ_cons,
    List.take_left' (List.length_replicate n v),
    List.drop_left' (List.length_replicate n v), ← List.replicate_succ]

/-- The arithmetic mean of a constant non-empty chunk is its value. -/
theorem mean_replicate (n : Nat) (v : ℚ) :
    (List.replicate (n+1) v).sum / ((List.replicate (n+1) v).length : ℚ)
      = v := by
  rw [List.sum_replicate, List.length_replicate, nsmul_eq_mul]
  exact mul_div_cancel_left₀ v (by positivity)

/-- Supporting fact: on a frame-interleaved buffer — the layout the WAV
reader feeds to `stereo_to_mono` — frames with identical channel values
downmix to exactly the per-frame values (exact equality in the rational
model of the float arithmetic).  The symphonia path does not enjoy this:
it hands `stereo_to_mono` a channel-planar buffer (see
`symphonia_planar_downmix_bug`). -/
theorem stereo_to_mono_identical_channels (vals : List ℚ) (c : Nat)
    (hc : 1 ≤ c) :
    stereo_to_mono (vals.map (List.replicate c)).flatten c = vals := by
  obtain ⟨n, rfl⟩ : ∃ n, c = n + 1 := ⟨c - 1, by omega⟩
  unfold stereo_to_mono
  by_cases h1 : n + 1 = 1
  · rw [if_pos h1]
    obtain rfl : n = 0 := by omega
    induction vals with
    | nil => rfl
    | cons v vs ih => simpa using ih
  · rw [if_neg h1]
    induction vals with
    | nil => simp [chunkList]
    | cons v vs ih =>
      rw [List.map_cons, List.flatten_cons]
      rw [chunkList_replicate_append, List.map_cons, mean_replicate, ih]

theorem stereo_to_mono_interleaved_instance :
    stereo_to_mono [(1:ℚ)/2, 1/2, 1/4, 1/4] 2 = [1/2, 1/4] := by
  have h := stereo_to_mono_identical_channels [(1:ℚ)/2, 1/4] 2 (by omega)
  simpa [List.replicate] using h

/-- C6 (code bug): the spec's per-frame arithmetic-mean downmix does not
hold on the symphonia path, because `decode_with_symphonia` accumulates
each packet channel-planar (all of channel 0, then channel 1, …) while
`stereo_to_mono` averages consecutive groups of `channels` samples —
frames only for interleaved input.  For a stereo packet whose two
channels both carry `[0, 1/2]`, the pushed buffer is `[0, 1/2, 0, 1/2]`
and decoding returns `[1/4, 1/4]`, not the per-frame values `[0, 1/2]`
the claim requires; the same audio in interleaved frame order
`[0, 0, 1/2, 1/2]` would downmix to `[0, 1/2]` as intended (and as the
WAV path does). -/
theorem symphonia_planar_downmix_bug :
    pushPacketSamples [[0, 1/2], [0, 1/2]] = [0, 1/2, 0, 1/2] ∧
    decode_with_symphonia
        [PacketEvent.packet (DecodeOutcome.ok ([0, 1/2, 0, 1/2] : List ℚ))]
        2 16000 id
      = Except.ok [1/4, 1/4] ∧
    ([1/4, 1/4] : List ℚ) ≠ [0, 1/2] ∧
    stereo_to_mono [0, 0, 1/2, 1/2] 2 = [0, 1/2] := by
  refine ⟨rfl, ?_, by norm_num, ?_⟩
  · norm_num [decode_with_symphonia, decodeLoop, stereo_to_mono, chunkList]
  · norm_num [stereo_to_mono, chunkList]

/-- C7 counterexample: a transcoder run that exits successfully but emits
no bytes on stdout is returned as `Ok` with an empty sample buffer — the
decoder has no emptiness check, so empty transcoder output is not a hard
error. -/
theorem video_decode_empty_output_is_ok :
    decode_video_with_ffmpeg true ⟨true, [], ""⟩ = Except.ok ([] : List ℚ) :=
  rfl

/-- C7 amended: when decoding a video container, a missing transcoder
binary yields a hard error with remediation text, and a non-zero exit
status of the transcoder yields a hard error carrying the transcoder's
stderr; but when the transcoder exits successfully its stdout — even if
empty — is parsed and returned as `Ok` (the caller checks emptiness
separately). -/
theorem video_decode_characterization (found : Bool) (out : ProcessOutput) :
    (found = false → decode_video_with_ffmpeg found out
      = Except.error "FFmpeg not found. Please install FFmpeg to process video files.") ∧
    (out.success = false → decode_video_with_ffmpeg true out
      = Except.error ("FFmpeg failed to extract audio: " ++ out.stderr)) ∧
    (out.success = true → decode_video_with_ffmpeg true out
      = Except.ok (pcm_s16le_to_f32 out.stdout)) := by
  refine ⟨fun h => ?_, fun h => ?_, fun h => ?_⟩ <;>
    simp [decode_video_with_ffmpeg, h]

theorem video_decode_characterization_witness :
    decode_video_with_ffmpeg false ⟨true, [], ""⟩
      = Except.error "FFmpeg not found. Please install FFmpeg to process video files." ∧
    decode_video_with_ffmpeg true ⟨false, [], "boom"⟩
      = Except.error ("FFmpeg failed to extract audio: " ++ "boom") ∧
    decode_video_with_ffmpeg true ⟨true, [0, 128], ""⟩
      = Except.ok (pcm_s16le_to_f32 [0, 128]) :=
  ⟨(video_decode_characterization false ⟨true, [], ""⟩).1 rfl,
   (video_decode_characterization true ⟨false, [], "boom"⟩).2.1 rfl,
   (video_decode_characterization true ⟨true, [0, 128], ""⟩).2.2 rfl⟩

/-- C8 counterexample: normalization is not a division by the format's
own signed maximum with full-scale positive mapping to `1.0`.  The
symphonia 24-bit branch divides by `i32::MAX`, so the full-scale positive
24-bit sample `8388607` maps to `8388607 / 2147483647` (≈ `2^-8`), not
`1.0`; and the WAV integer path divides 16-bit samples by
`1 << 15 = 32768`, so the full-scale positive 16-bit sample `32767` maps
to `32767 / 32768`, not `1.0`. -/
theorem normalization_full_scale_counterexample :
    normalizeS24 8388607 = (8388607 : ℚ) / 2147483647 ∧
    (8388607 : ℚ) / 2147483647 ≠ 1 ∧
    wavNormalizeInt 16 32767 = (32767 : ℚ) / 32768 ∧
    (32767 : ℚ) / 32768 ≠ 1 := by
  refine ⟨?_, by norm_num, ?_, by norm_num⟩
  · unfold normalizeS24
    norm_num
  · unfold wavNormalizeInt
    rw [show wavMaxValue 16 = 32768 by decide]
    norm_num

/-- C8 amended: each integer format is normalized by a symmetric
division, but not uniformly by its own signed maximum.  The symphonia
path divides 16-bit samples by `i16::MAX` (full-scale positive maps to
`1.0`) and 32-bit samples by `i32::MAX`, yet treats 24-bit samples by the
identical 32-bit rule — dividing by `i32::MAX`, so full-scale 24-bit
reaches only ≈ `2^-8` — and maps `u8` by `(x - 128) / 128` (full-scale
positive maps to `127/128`).  The WAV integer path divides by the `i32`
value `1 << (b-1)`: for depths 8, 16 and 24 that is `2^(b-1)`, so
full-scale negative maps to `-1.0` exactly and full-scale positive to
`1 - 2^(1-b)`, not `1.0`; at depth 32 the shift wraps to
`i32::MIN = -2^31`, so every 32-bit WAV sample is divided by a negative
number and changes sign — full-scale negative maps to `+1.0` and
full-scale positive to `-(2^31 - 1)/2^31`. -/
theorem normalization_divisors (x : ℤ) :
    normalizeS24 x = normalizeS32 x ∧
    normalizeS16 32767 = 1 ∧
    normalizeS32 2147483647 = 1 ∧
    normalizeS24 8388607 < 1 / 250 ∧
    normalizeU8 255 = 127 / 128 ∧
    normalizeU8 0 = -1 ∧
    wavNormalizeInt 8 (-128) = -1 ∧
    wavNormalizeInt 16 (-32768) = -1 ∧
    wavNormalizeInt 24 (-8388608) = -1 ∧
    wavNormalizeInt 16 32767 = 1 - 1 / 32768 ∧
    wavNormalizeInt 32 (-2147483648) = 1 ∧
    wavNormalizeInt 32 2147483647 = -(2147483647 / 2147483648) := by
  refine ⟨rfl, ?_, ?_, ?_, ?_, ?_, ?_, ?_, ?_, ?_, ?_, ?_⟩ <;>
    simp only [normalizeS16, normalizeS24, normalizeS32, normalizeU8,
      wavNormalizeInt]
  · norm_num
  · norm_num
  · norm_num
  · norm_num
  · norm_num
  · rw [show wavMaxValue 8 = 128 by decide]
    norm_num
  · rw [show wavMaxValue 16 = 32768 by decide]
    norm_num
  · rw [show wavMaxValue 24 = 8388608 by decide]
    norm_num
  · rw [show wavMaxValue 16 = 32768 by decide]
    norm_num
  · rw [show wavMaxValue 32 = -2147483648 by decide]
    norm_num
  · rw [show wavMaxValue 32 = -2147483648 by decide]
    norm_num

/-- C9: Chinese-variant conversion applies only when the selected
language is one of the two supported script variants: for any other
selected language it returns `None`, deterministically, for every
transcript and every converter behaviour; for `zh-Hans` it converts with
the `Tw2sp` configuration and for `zh-Hant` with `S2twp` (returning
`None` only if the converter fails to initialize). -/
theorem variant_conversion_guard
    (opencc : BuiltinConfig → Option (String → String))
    (settings : VariantSettings) (t : String) :
    (settings.selected_language ≠ "zh-Hans" →
      settings.selected_language ≠ "zh-Hant" →
      maybe_convert_chinese_variant opencc settings t = none) ∧
    (settings.selected_language = "zh-Hans" →
      maybe_convert_chinese_variant opencc settings t
        = (opencc BuiltinConfig.Tw2sp).map (fun conv => conv t)) ∧
    (settings.selected_language = "zh-Hant" →
      maybe_convert_chinese_variant opencc settings t
        = (opencc BuiltinConfig.S2twp).map (fun conv => conv t)) := by
  refine ⟨fun h1 h2 => ?_, fun h => ?_, fun h => ?_⟩
  · simp [maybe_convert_chinese_variant, h1, h2]
  · simp only [maybe_convert_chinese_variant, h]
    simp
    cases opencc BuiltinConfig.Tw2sp <;> rfl
  · have h' : settings.selected_language ≠ "zh-Hans" := by
      rw [h]
      decide
    simp only [maybe_convert_chinese_variant, h, h']
    simp
    cases opencc BuiltinConfig.S2twp <;> rfl

theorem variant_conversion_guard_witness :
    maybe_convert_chinese_variant (fun _ => some (fun s => s ++ "?"))
        ⟨"en"⟩ "hello" = none ∧
    maybe_convert_chinese_variant (fun _ => some (fun s => s ++ "?"))
        ⟨"zh-Hans"⟩ "hello" = some "hello?" ∧
    maybe_convert_chinese_variant (fun _ => none) ⟨"zh-Hant"⟩ "hello"
      = none := by
  refine ⟨(variant_conversion_guard _ ⟨"en"⟩ "hello").1 (by decide) (by decide),
    ?_, ?_⟩
  · rw [(variant_conversion_guard _ ⟨"zh-Hans"⟩ "hello").2.1 rfl]
    rfl
  · rw [(variant_conversion_guard _ ⟨"zh-Hant"⟩ "hello").2.2 rfl]
    rfl

end Echo
